import Mathlib

/-
Verification of the Thermal Cycle Profile Engine and its Key-Point
Annotation Layout, embedded from the repository sources (MAIN01.py and
web.py).  The simulator calculate_temperature_profile is line-for-line
identical in the two files and is embedded once; the two chart functions
differ after the annotation loop and are embedded separately.  Real
numbers are modelled as rationals.  A Python ZeroDivisionError — caught
by the surrounding try/except and surfaced as a (None, None) result —
is modelled by Option, with none as the error outcome.
-/

namespace TemTime

/- Label strings appearing in the profile, exactly as in the sources. -/

def lblInitialStart : String := "初始温度开始"

def lblInitialEnd : String := "初始温度结束"

def lblFirstCycle : String := "首循环"

def lblLastCycle : String := "末循环"

def lblMiddleCycle : String := "中间循环"

def lblHighReached : String := "高温达到"

def lblHighEnd : String := "高温结束"

def lblLowReached : String := "低温达到"

def lblLowEnd : String := "低温结束"

def lblRecoveryReached : String := "回温温度达到"

def lblRecoveryEnd : String := "回温结束"

/-- Input parameter record (the params dict).  Temperatures in degrees,
times in hours, rates in degrees per hour (already converted from
degrees per minute at the boundary, as in the sources).  cycles is the
loop bound of `for cycle in range(params['cycles'])`; a Python int that
is negative gives the same empty loop as 0, so it is modelled by ℕ. -/
structure Params where
  initial_temp : ℚ
  initial_time : ℚ
  recovery_temp : ℚ
  recovery_time : ℚ
  high_temp : ℚ
  high_tolerance : ℚ
  low_temp : ℚ
  low_tolerance : ℚ
  first_high_time : ℚ
  first_low_time : ℚ
  last_high_time : ℚ
  last_low_time : ℚ
  middle_high_time : ℚ
  middle_low_time : ℚ
  heat_rate : ℚ
  cool_rate : ℚ
  cycles : ℕ

/-- Profile point: (time, temperature, label), as the Python tuples. -/
abbrev ProfilePoint : Type := ℚ × ℚ × String

/-- Mutable accumulator state of calculate_temperature_profile:
the profile list, the key_points index list, current_time and
current_temp. -/
structure SimState where
  profile : List ProfilePoint
  key_points : List ℕ
  current_time : ℚ
  current_temp : ℚ

/-- Embeds the repeated pair
profile.append((current_time, current_temp, label));
key_points.append(len(profile) - 1). -/
def appendPoint (label : String) (s : SimState) : SimState :=
  { s with
    profile := s.profile ++ [(s.current_time, s.current_temp, label)]
    key_points := s.key_points ++ [s.profile.length] }

/-- Embeds a hold phase: current_time += duration followed by the
append of the point at the unchanged temperature. -/
def hold (duration : ℚ) (label : String) (s : SimState) : SimState :=
  appendPoint label { s with current_time := s.current_time + duration }

/-- Embeds one ramp block of the source (the same block appears for
ramp-to-high, ramp-to-low and recovery):
temp_diff = target - current_temp; if temp_diff != 0 then
time_change = abs(temp_diff) / (heat_rate if temp_diff > 0 else cool_rate),
the point (current_time + time_change, target, label) is appended and
current_temp becomes target.  Division by a zero rate raises
ZeroDivisionError in Python (caught by the except), modelled by none. -/
def rampTo (p : Params) (target : ℚ) (label : String) (s : SimState) :
    Option SimState :=
  let temp_diff : ℚ := target - s.current_temp
  if temp_diff ≠ 0 then
    let rate : ℚ := if 0 < temp_diff then p.heat_rate else p.cool_rate
    if rate = 0 then none
    else
      let t : ℚ := s.current_time + |temp_diff| / rate
      some { profile := s.profile ++ [(t, target, label)]
             key_points := s.key_points ++ [s.profile.length]
             current_time := t
             current_temp := target }
  else some s

/-- Selection of high_time by the if/elif/else on the cycle index:
first-cycle value when cycle == 0, last-cycle value when
cycle == cycles - 1 (only reached when cycle ≠ 0), middle otherwise. -/
def cycleHighTime (p : Params) (cycle : ℕ) : ℚ :=
  if cycle = 0 then p.first_high_time
  else if cycle = p.cycles - 1 then p.last_high_time
  else p.middle_high_time

/-- Selection of low_time by the same if/elif/else. -/
def cycleLowTime (p : Params) (cycle : ℕ) : ℚ :=
  if cycle = 0 then p.first_low_time
  else if cycle = p.cycles - 1 then p.last_low_time
  else p.middle_low_time

/-- Selection of cycle_type by the same if/elif/else; the middle label
carries the zero-based cycle index as in the f-string. -/
def cycleType (p : Params) (cycle : ℕ) : String :=
  if cycle = 0 then lblFirstCycle
  else if cycle = p.cycles - 1 then lblLastCycle
  else lblMiddleCycle ++ toString cycle

/-- Embeds one iteration of `for cycle in range(params['cycles'])`:
the if/elif/else selection of hold durations and label prefix, the ramp
to high, the hold at high, and (when cycle < cycles - 1) the ramp to
low and the hold at low. -/
def cycleStep (p : Params) (s : SimState) (cycle : ℕ) : Option SimState :=
  let high_time := cycleHighTime p cycle
  let low_time := cycleLowTime p cycle
  let cycle_type := cycleType p cycle
  do
    let s1 ← rampTo p p.high_temp (cycle_type ++ lblHighReached) s
    let s2 := hold high_time (cycle_type ++ lblHighEnd) s1
    if cycle < p.cycles - 1 then
      do
        let s3 ← rampTo p p.low_temp (cycle_type ++ lblLowReached) s2
        pure (hold low_time (cycle_type ++ lblLowEnd) s3)
    else
      pure s2

/-- Embeds calculate_temperature_profile (identical in MAIN01.py and
web.py): the initial hold, the cycle loop, the recovery ramp and the
recovery hold; returns the profile and the key-point index list.  The
Python function returns (None, None) when an exception escapes the
simulation; that outcome is none. -/
def calculate_temperature_profile (p : Params) :
    Option (List ProfilePoint × List ℕ) := do
  let s0 : SimState :=
    { profile := [], key_points := [], current_time := 0,
      current_temp := p.initial_temp }
  let s1 := appendPoint lblInitialStart s0
  let s2 := hold p.initial_time lblInitialEnd s1
  let s3 ← (List.range p.cycles).foldlM (cycleStep p) s2
  let s4 ← rampTo p p.recovery_temp lblRecoveryReached s3
  let s5 := hold p.recovery_time lblRecoveryEnd s4
  pure (s5.profile, s5.key_points)

/-- Ambient axis limits read by the annotation loop through plt.xlim()
and plt.ylim().  matplotlib state is external to the algorithm; the
loop only reads these four numbers, so they are taken as parameters. -/
structure ChartEnv where
  xlo : ℚ
  xhi : ℚ
  ylo : ℚ
  yhi : ℚ

/-- Output of the annotation loop for one key point: the marker
position, the time-axis text position (x_pos, y_text_pos) and the
temperature-axis text position (x_text_pos, y_pos). -/
structure ChartMark where
  marker : ℚ × ℚ
  timeLabel : ℚ × ℚ
  tempLabel : ℚ × ℚ

/-- Insertion of one index into an ascending list (helper for
sortedKeys). -/
def insertKey (n : ℕ) : List ℕ → List ℕ
  | [] => [n]
  | m :: ms => if n ≤ m then n :: m :: ms else m :: insertKey n ms

/-- Ascending insertion sort on indices (helper for sortedKeys). -/
def sortKeys : List ℕ → List ℕ
  | [] => []
  | n :: ns => insertKey n (sortKeys ns)

/-- Embeds key_indices = list(set(key_points)); key_indices.sort():
the distinct key-point indices in ascending order. -/
def sortedKeys (l : List ℕ) : List ℕ :=
  sortKeys l.eraseDups

/-- Embeds the annotation loop shared by create_chart_png (MAIN01.py)
and create_chart_image (web.py).  used is the single running list
used_positions; both the time-label x-overlap check and the
temperature-label y-overlap check scan this one list.  A committed
time label records (x_pos, y_text_pos) and a committed temperature
label records (x_text_pos, y_pos) into the same list.  Python indexing
times[idx] raises IndexError when idx is out of range (caught by the
except), modelled by none. -/
def annotateAux (env : ChartEnv) (times temps : List ℚ) :
    List ℕ → List (ℚ × ℚ) → Option (List ChartMark)
  | [], _ => some []
  | idx :: rest, used =>
    match times[idx]?, temps[idx]? with
    | some time, some temp =>
      let y_text_pos := env.ylo + (env.yhi - env.ylo) * (2 / 100)
      let label_offset := (3 / 100) * (env.xhi - env.xlo)
      let overlap := used.any fun u => decide (|time - u.1| < label_offset)
      let y_text_used := if overlap then
        env.ylo + (env.yhi - env.ylo) * (6 / 100) else y_text_pos
      let used1 := if overlap then used else used ++ [(time, y_text_pos)]
      let x_text_pos := env.xlo + (env.xhi - env.xlo) * (2 / 100)
      let y_overlap := used1.any fun u =>
        decide (|temp - u.2| < (3 / 100) * (env.yhi - env.ylo))
      let x_text_used := if y_overlap then
        env.xlo + (env.xhi - env.xlo) * (6 / 100) else x_text_pos
      let used2 := if y_overlap then used1 else used1 ++ [(x_text_pos, temp)]
      (annotateAux env times temps rest used2).map fun ms =>
        { marker := (time, temp), timeLabel := (time, y_text_used),
          tempLabel := (x_text_used, temp) } :: ms
    | _, _ => none

/-- Reformulation of the annotation loop with the single used_positions
pool split into two lists, one receiving the time-label anchors and one
the temperature-label anchors, where every collision check consults
both lists.  Proved equivalent to annotateAux below. -/
def annotateAux2 (env : ChartEnv) (times temps : List ℚ) :
    List ℕ → List (ℚ × ℚ) → List (ℚ × ℚ) → Option (List ChartMark)
  | [], _, _ => some []
  | idx :: rest, tUsed, pUsed =>
    match times[idx]?, temps[idx]? with
    | some time, some temp =>
      let y_text_pos := env.ylo + (env.yhi - env.ylo) * (2 / 100)
      let label_offset := (3 / 100) * (env.xhi - env.xlo)
      let overlap :=
        (tUsed.any fun u => decide (|time - u.1| < label_offset)) ||
        (pUsed.any fun u => decide (|time - u.1| < label_offset))
      let y_text_used := if overlap then
        env.ylo + (env.yhi - env.ylo) * (6 / 100) else y_text_pos
      let tUsed1 := if overlap then tUsed else tUsed ++ [(time, y_text_pos)]
      let x_text_pos := env.xlo + (env.xhi - env.xlo) * (2 / 100)
      let y_overlap :=
        (tUsed1.any fun u =>
          decide (|temp - u.2| < (3 / 100) * (env.yhi - env.ylo))) ||
        (pUsed.any fun u =>
          decide (|temp - u.2| < (3 / 100) * (env.yhi - env.ylo)))
      let x_text_used := if y_overlap then
        env.xlo + (env.xhi - env.xlo) * (6 / 100) else x_text_pos
      let pUsed1 := if y_overlap then pUsed else pUsed ++ [(x_text_pos, temp)]
      (annotateAux2 env times temps rest tUsed1 pUsed1).map fun ms =>
        { marker := (time, temp), timeLabel := (time, y_text_used),
          tempLabel := (x_text_used, temp) } :: ms
    | _, _ => none

/-- Modelled from the spec: the annotation layout as the claim
describes it, with two separate running lists of committed anchors —
time-axis labels keyed by x-position and temperature-axis labels keyed
by y-position — each collision check consulting only its own list, so
that a time-axis label never triggers a temperature-axis collision.
This is the claim-side algorithm, to be compared with annotateAux. -/
def splitListAux (env : ChartEnv) (times temps : List ℚ) :
    List ℕ → List (ℚ × ℚ) → List (ℚ × ℚ) → Option (List ChartMark)
  | [], _, _ => some []
  | idx :: rest, tUsed, pUsed =>
    match times[idx]?, temps[idx]? with
    | some time, some temp =>
      let y_text_pos := env.ylo + (env.yhi - env.ylo) * (2 / 100)
      let label_offset := (3 / 100) * (env.xhi - env.xlo)
      let overlap := tUsed.any fun u => decide (|time - u.1| < label_offset)
      let y_text_used := if overlap then
        env.ylo + (env.yhi - env.ylo) * (6 / 100) else y_text_pos
      let tUsed1 := if overlap then tUsed else tUsed ++ [(time, y_text_pos)]
      let x_text_pos := env.xlo + (env.xhi - env.xlo) * (2 / 100)
      let y_overlap := pUsed.any fun u =>
        decide (|temp - u.2| < (3 / 100) * (env.yhi - env.ylo))
      let x_text_used := if y_overlap then
        env.xlo + (env.xhi - env.xlo) * (6 / 100) else x_text_pos
      let pUsed1 := if y_overlap then pUsed else pUsed ++ [(x_text_pos, temp)]
      (splitListAux env times temps rest tUsed1 pUsed1).map fun ms =>
        { marker := (time, temp), timeLabel := (time, y_text_used),
          tempLabel := (x_text_used, temp) } :: ms
    | _, _ => none

/-- Embeds create_chart_image (web.py): the annotation loop starting
from an empty used_positions list; the function then saves the figure
and succeeds, so its observable result is the marks. -/
def create_chart_image (env : ChartEnv) (profile : List ProfilePoint)
    (key_points : List ℕ) : Option (List ChartMark) :=
  let times := profile.map fun pt => pt.1
  let temps := profile.map fun pt => pt.2.1
  annotateAux env times temps (sortedKeys key_points) []

/-- Companion of create_chart_image built on the claim-side
splitListAux layout instead of the source layout. -/
def claim_chart_image (env : ChartEnv) (profile : List ProfilePoint)
    (key_points : List ℕ) : Option (List ChartMark) :=
  let times := profile.map fun pt => pt.1
  let temps := profile.map fun pt => pt.2.1
  splitListAux env times temps (sortedKeys key_points) [] []

/-- Embeds create_chart_png (MAIN01.py): the same annotation loop, but
after it the axis bounds are set from plt.xlim(0, max(times) * 1.15)
and plt.ylim(min(0, min(temps) * 1.15), max(temps) * 1.15).  On an
empty profile, max(times) raises ValueError in Python, caught by the
except so the function reports failure: modelled by none.  The result
carries the marks and the final x and y bounds. -/
def create_chart_png (env : ChartEnv) (profile : List ProfilePoint)
    (key_points : List ℕ) :
    Option (List ChartMark × (ℚ × ℚ) × (ℚ × ℚ)) := do
  let times := profile.map fun pt => pt.1
  let temps := profile.map fun pt => pt.2.1
  let marks ← annotateAux env times temps (sortedKeys key_points) []
  match times.max?, temps.min?, temps.max? with
  | some tmax, some templo, some temphi =>
    pure (marks, ((0 : ℚ), tmax * (115 / 100)),
          (min 0 (templo * (115 / 100)), temphi * (115 / 100)))
  | _, _, _ => none

/-- Non-negativity of every duration field, the documented input
domain for the time parameters. -/
def NonnegDurations (p : Params) : Prop :=
  0 ≤ p.initial_time ∧ 0 ≤ p.recovery_time ∧
  0 ≤ p.first_high_time ∧ 0 ≤ p.first_low_time ∧
  0 ≤ p.last_high_time ∧ 0 ≤ p.last_low_time ∧
  0 ≤ p.middle_high_time ∧ 0 ≤ p.middle_low_time

/-- Invariant carried through the simulation for the monotone-time
property: profile times are pairwise non-decreasing in order, and every
recorded time is at most the current time. -/
def TimeInv (s : SimState) : Prop :=
  List.Chain' (fun a b : ProfilePoint => a.1 ≤ b.1) s.profile ∧
  ∀ pt ∈ s.profile, pt.1 ≤ s.current_time

/-- Invariant for the key-point claim: key_points always lists exactly
the indices 0, 1, ..., len(profile) - 1. -/
def KeyInv (s : SimState) : Prop :=
  s.key_points = List.range s.profile.length

/-- Scenario configuration of the spec (rates already converted to
degrees per hour: 3 °/min → 180 °/h, 4 °/min → 240 °/h). -/
def c5cfg : Params :=
  { initial_temp := 70, initial_time := 1/2, recovery_temp := 40,
    recovery_time := 1/2, high_temp := 100, high_tolerance := 2,
    low_temp := -20, low_tolerance := 2,
    first_high_time := 1/4, first_low_time := 2,
    last_high_time := 1/4, last_low_time := 2,
    middle_high_time := 1, middle_low_time := 1,
    heat_rate := 180, cool_rate := 240, cycles := 3 }

/-- Expected profile for c5cfg: exact rational times whose decimal
renderings are the spec's 0.6667 h, 0.9167 h, 1.4167 h, 3.4167 h, and
so on through the middle and last cycles and the recovery phase. -/
def c5profile : List ProfilePoint :=
  [((0 : ℚ), (70 : ℚ), lblInitialStart),
   (1/2, 70, lblInitialEnd),
   (2/3, 100, lblFirstCycle ++ lblHighReached),
   (11/12, 100, lblFirstCycle ++ lblHighEnd),
   (17/12, -20, lblFirstCycle ++ lblLowReached),
   (41/12, -20, lblFirstCycle ++ lblLowEnd),
   (49/12, 100, lblMiddleCycle ++ toString (1 : ℕ) ++ lblHighReached),
   (61/12, 100, lblMiddleCycle ++ toString (1 : ℕ) ++ lblHighEnd),
   (67/12, -20, lblMiddleCycle ++ toString (1 : ℕ) ++ lblLowReached),
   (79/12, -20, lblMiddleCycle ++ toString (1 : ℕ) ++ lblLowEnd),
   (29/4, 100, lblLastCycle ++ lblHighReached),
   (15/2, 100, lblLastCycle ++ lblHighEnd),
   (31/4, 40, lblRecoveryReached),
   (33/4, 40, lblRecoveryEnd)]

/-- Configuration with cycles = 0, all other fields well formed. -/
def cfgCyclesZero : Params :=
  { c5cfg with cycles := 0 }

/-- Configuration with strictly negative ramp rates. -/
def cfgNegRate : Params :=
  { c5cfg with heat_rate := -180, cool_rate := -240, cycles := 2 }

/-- Single-cycle configuration whose first ramp-to-high is degenerate:
the initial temperature already equals the high temperature. -/
def cfgDegenerate : Params :=
  { c5cfg with initial_temp := 100, cycles := 1 }

/-- Expected profile for cfgDegenerate: the degenerate first ramp
emits no point, so the single cycle contributes only the hold-end
point and the whole profile has five points. -/
def degProfile : List ProfilePoint :=
  [((0 : ℚ), (100 : ℚ), lblInitialStart),
   (1/2, 100, lblInitialEnd),
   (3/4, 100, lblFirstCycle ++ lblHighEnd),
   (1, 40, lblRecoveryReached),
   (3/2, 40, lblRecoveryEnd)]

/-- Concrete simulator state used to instantiate the ramp theorem:
empty profile, time 0, temperature 70. -/
def simState0 : SimState :=
  { profile := [], key_points := [], current_time := 0, current_temp := 70 }

/-- Chart environment used for the concrete annotation runs: axis
limits x ∈ [0, 100], y ∈ [0, 100], so the first-tier y inset is 2, the
bump tier is 6 and the y proximity threshold is 3. -/
def envW : ChartEnv :=
  { xlo := 0, xhi := 100, ylo := 0, yhi := 100 }

/-- One-point profile for the annotation counterexample: a single key
point at time 10 with temperature 3, which sits within 3 units of the
committed time-label anchor (whose y component is the 2 inset). -/
def ceProfile : List ProfilePoint :=
  [((10 : ℚ), (3 : ℚ), lblInitialStart)]

/- Helper lemmas about the phase primitives. -/

theorem hold_temp (d : ℚ) (lbl : String) (s : SimState) :
    (hold d lbl s).current_temp = s.current_temp := rfl

theorem hold_length (d : ℚ) (lbl : String) (s : SimState) :
    (hold d lbl s).profile.length = s.profile.length + 1 := by
  simp [hold, appendPoint]

/-- Characterisation of a ramp when both rates are nonzero: it always
succeeds, lands on the target temperature, and appends one point
exactly when the current temperature differs from the target. -/
theorem rampTo_count (p : Params) (hh : p.heat_rate ≠ 0)
    (hc : p.cool_rate ≠ 0) (target : ℚ) (lbl : String) (s : SimState) :
    ∃ s', rampTo p target lbl s = some s' ∧ s'.current_temp = target ∧
      s'.profile.length = s.profile.length +
        (if s.current_temp = target then 0 else 1) := by
  by_cases hd : target - s.current_temp = 0
  · have heq : s.current_temp = target := (sub_eq_zero.mp hd).symm
    exact ⟨s, by simp [rampTo, hd], heq, by simp [heq]⟩
  · have hne : s.current_temp ≠ target := fun e => hd (by rw [e, sub_self])
    have hr : (if s.current_temp < target then p.heat_rate
        else p.cool_rate) ≠ 0 := by
      by_cases hlt : s.current_temp < target
      · simpa [hlt] using hh
      · simpa [hlt] using hc
    have key : rampTo p target lbl s = some
        { profile := s.profile ++
            [(s.current_time + |target - s.current_temp| /
                (if 0 < target - s.current_temp then p.heat_rate
                 else p.cool_rate), target, lbl)],
          key_points := s.key_points ++ [s.profile.length],
          current_time := s.current_time + |target - s.current_temp| /
              (if 0 < target - s.current_temp then p.heat_rate
               else p.cool_rate),
          current_temp := target } := by
      simp [rampTo, hd, hr]
    exact ⟨_, key, rfl, by simp [hne]⟩

/-- Option-valued left fold preserves an invariant preserved by each
step. -/
theorem foldlM_some_inv {β α : Type} (f : β → α → Option β) (P : β → Prop)
    (hf : ∀ b a b', P b → f b a = some b' → P b') :
    ∀ (l : List α) (b b' : β), P b → l.foldlM f b = some b' → P b' := by
  intro l
  induction l with
  | nil =>
    intro b b' hb h
    simp only [List.foldlM] at h
    cases h
    exact hb
  | cons a t ih =>
    intro b b' hb h
    rw [List.foldlM_cons] at h
    rcases Option.bind_eq_some.mp h with ⟨mid, hmid, hrest⟩
    exact ih mid b' (hf b a mid hb hmid) hrest

/-- Option-valued left fold of a step that always succeeds succeeds. -/
theorem foldlM_some_total {β α : Type} (f : β → α → Option β)
    (hf : ∀ b a, ∃ b', f b a = some b') :
    ∀ (l : List α) (b : β), ∃ b', l.foldlM f b = some b' := by
  intro l
  induction l with
  | nil => exact fun b => ⟨b, rfl⟩
  | cons a t ih =>
    intro b
    rcases hf b a with ⟨mid, hmid⟩
    rcases ih mid with ⟨b', hb'⟩
    exact ⟨b', by rw [List.foldlM_cons, hmid]; simpa using hb'⟩

/-- C5: on the scenario configuration (initial 70 ° for 0.5 h, high
100 °, low -20 °, recovery 40 ° for 0.5 h, heat 180 °/h, cool
240 °/h, three cycles) the simulator produces exactly the fourteen
points starting (0, 70), (0.5, 70), reaching 100 ° at 2/3 h
(= 0.5 + 30/180), holding to 11/12 h, reaching -20 ° at 17/12 h
(= 11/12 + 120/240), holding to 41/12 h, continuing through the middle
and last cycles, ramping to 40 ° at 31/4 h and holding 0.5 h to
33/4 h; every point is a key point. -/
theorem claim5_scenario :
    calculate_temperature_profile c5cfg = some (c5profile, List.range 14) := by
  norm_num [calculate_temperature_profile, cycleStep, cycleHighTime,
    cycleLowTime, cycleType, rampTo, hold, appendPoint, c5cfg, c5profile,
    List.range_succ, lblInitialStart, lblInitialEnd, lblFirstCycle,
    lblLastCycle, lblMiddleCycle, lblHighReached, lblHighEnd, lblLowReached,
    lblLowEnd, lblRecoveryReached, lblRecoveryEnd]

/-- C10: the simulator is a pure function of the parameter record —
no I/O and no randomness enter the embedding — so two calls on
identical inputs return bit-identical profiles and key-point lists. -/
theorem claim10_deterministic (p q : Params) (h : p = q) :
    calculate_temperature_profile p = calculate_temperature_profile q := by
  rw [h]

/-- Witness for C10 at the scenario configuration. -/
theorem claim10_witness :
    c5cfg = c5cfg ∧
    calculate_temperature_profile c5cfg = calculate_temperature_profile c5cfg :=
  ⟨rfl, claim10_deterministic c5cfg c5cfg rfl⟩

/-- C2: a ramp phase with positive rates emits exactly one point when
the current temperature differs from the target — at the target
temperature, with time advanced by the non-negative duration
abs(target - current) / rate, the rate being heat_rate when the target
is above the current temperature and cool_rate otherwise — and is
skipped entirely (no point, state unchanged) when the current
temperature equals the target under exact equality. -/
theorem claim2_ramp (p : Params) (target : ℚ) (lbl : String) (s : SimState)
    (hh : 0 < p.heat_rate) (hc : 0 < p.cool_rate) :
    (s.current_temp = target → rampTo p target lbl s = some s) ∧
    (s.current_temp ≠ target →
      0 ≤ |target - s.current_temp| /
          (if s.current_temp < target then p.heat_rate else p.cool_rate) ∧
      rampTo p target lbl s = some
        { profile := s.profile ++
            [(s.current_time + |target - s.current_temp| /
                (if s.current_temp < target then p.heat_rate
                 else p.cool_rate), target, lbl)]
          key_points := s.key_points ++ [s.profile.length]
          current_time := s.current_time + |target - s.current_temp| /
              (if s.current_temp < target then p.heat_rate else p.cool_rate)
          current_temp := target }) := by
  constructor
  · intro h
    simp [rampTo, h]
  · intro h
    have hne : target - s.current_temp ≠ 0 :=
      sub_ne_zero.mpr fun e => h e.symm
    have hpos : 0 < (if s.current_temp < target then p.heat_rate
        else p.cool_rate) := by
      by_cases hlt : s.current_temp < target
      · simpa [hlt] using hh
      · simpa [hlt] using hc
    refine ⟨div_nonneg (abs_nonneg _) (le_of_lt hpos), ?_⟩
    simp only [rampTo]
    rw [if_pos hne]
    simp only [sub_pos]
    rw [if_neg (Ne.symm (ne_of_lt hpos))]

/-- Witness for C2: ramping simState0 (temperature 70) to 100 under
the scenario rates appends the single point (1/6, 100). -/
theorem claim2_witness :
    (0 : ℚ) < c5cfg.heat_rate ∧ (0 : ℚ) < c5cfg.cool_rate ∧
    simState0.current_temp ≠ (100 : ℚ) ∧
    (0 ≤ |(100 : ℚ) - simState0.current_temp| /
      (if simState0.current_temp < 100 then c5cfg.heat_rate
       else c5cfg.cool_rate)) ∧
    rampTo c5cfg 100 lblHighReached simState0 = some
      { profile := simState0.profile ++
          [(simState0.current_time + |(100 : ℚ) - simState0.current_temp| /
              (if simState0.current_temp < 100 then c5cfg.heat_rate
               else c5cfg.cool_rate), 100, lblHighReached)]
        key_points := simState0.key_points ++ [simState0.profile.length]
        current_time := simState0.current_time +
            |(100 : ℚ) - simState0.current_temp| /
            (if simState0.current_temp < 100 then c5cfg.heat_rate
             else c5cfg.cool_rate)
        current_temp := 100 } ∧
    rampTo c5cfg 100 lblHighReached simState0 = some
      { profile := [((1 : ℚ)/6, 100, lblHighReached)], key_points := [0],
        current_time := 1/6, current_temp := 100 } := by
  have hA : (0 : ℚ) < c5cfg.heat_rate := by norm_num [c5cfg]
  have hB : (0 : ℚ) < c5cfg.cool_rate := by norm_num [c5cfg]
  have hne : simState0.current_temp ≠ (100 : ℚ) := by norm_num [simState0]
  refine ⟨hA, hB, hne,
    ((claim2_ramp c5cfg 100 lblHighReached simState0 hA hB).2 hne).1,
    ((claim2_ramp c5cfg 100 lblHighReached simState0 hA hB).2 hne).2, ?_⟩
  norm_num [rampTo, simState0, c5cfg]

/-- Inversion for a successful ramp: either the state is unchanged
(degenerate ramp) or exactly one point was appended, at the target
temperature, with the time advanced by the absolute temperature
difference divided by one of the two configured rates. -/
theorem rampTo_some_inv (p : Params) (target : ℚ) (lbl : String)
    (s s' : SimState) (he : rampTo p target lbl s = some s') :
    s' = s ∨ ∃ rate : ℚ, (rate = p.heat_rate ∨ rate = p.cool_rate) ∧
      s' = { profile := s.profile ++
               [(s.current_time + |target - s.current_temp| / rate,
                 target, lbl)],
             key_points := s.key_points ++ [s.profile.length],
             current_time := s.current_time +
               |target - s.current_temp| / rate,
             current_temp := target } := by
  simp only [rampTo] at he
  split at he
  · split at he <;> split at he
    · exact Option.noConfusion he
    · exact Or.inr ⟨p.heat_rate, Or.inl rfl, (Option.some.inj he).symm⟩
    · exact Option.noConfusion he
    · exact Or.inr ⟨p.cool_rate, Or.inr rfl, (Option.some.inj he).symm⟩
  · exact Or.inl (Option.some.inj he).symm

/- Totality lemmas for C1. -/

theorem cycleStep_total (p : Params) (hh : p.heat_rate ≠ 0)
    (hc : p.cool_rate ≠ 0) (s : SimState) (c : ℕ) :
    ∃ s', cycleStep p s c = some s' := by
  obtain ⟨s1, e1, -, -⟩ :=
    rampTo_count p hh hc p.high_temp (cycleType p c ++ lblHighReached) s
  by_cases hlt : c < p.cycles - 1
  · obtain ⟨s3, e3, -, -⟩ :=
      rampTo_count p hh hc p.low_temp (cycleType p c ++ lblLowReached)
        (hold (cycleHighTime p c) (cycleType p c ++ lblHighEnd) s1)
    refine ⟨hold (cycleLowTime p c) (cycleType p c ++ lblLowEnd) s3, ?_⟩
    simp [cycleStep, e1, hlt, e3]
  · refine ⟨hold (cycleHighTime p c) (cycleType p c ++ lblHighEnd) s1, ?_⟩
    simp [cycleStep, e1, hlt]

/-- C1 (amended): the simulator performs no up-front validation at
all.  Whenever both rates are nonzero it succeeds — including for
cycles < 1 (the cycle loop is simply empty) and for negative rates
(ramp durations come out negative but no error is raised).  The only
error outcome is the ZeroDivisionError from a ramp whose selected rate
is zero while its temperature difference is nonzero; it is raised
during simulation, and the caller still observes no partial profile
because the except clause returns (None, None). -/
theorem claim1_amended (p : Params) (hh : p.heat_rate ≠ 0)
    (hc : p.cool_rate ≠ 0) :
    ∃ r, calculate_temperature_profile p = some r := by
  obtain ⟨s3, h3⟩ :=
    foldlM_some_total (cycleStep p) (fun b a => cycleStep_total p hh hc b a)
      (List.range p.cycles)
      (hold p.initial_time lblInitialEnd (appendPoint lblInitialStart
        { profile := [], key_points := [], current_time := 0,
          current_temp := p.initial_temp }))
  obtain ⟨s4, h4, -, -⟩ :=
    rampTo_count p hh hc p.recovery_temp lblRecoveryReached s3
  refine ⟨((hold p.recovery_time lblRecoveryEnd s4).profile,
    (hold p.recovery_time lblRecoveryEnd s4).key_points), ?_⟩
  simp [calculate_temperature_profile, h3, h4]

/-- Counterexample to C1 as stated: a configuration with cycles = 0
(< 1) succeeds instead of returning an error, and a configuration with
strictly negative heat and cool rates also succeeds instead of
returning an error. -/
theorem claim1_counterexample :
    cfgCyclesZero.cycles < 1 ∧
    (calculate_temperature_profile cfgCyclesZero).isSome = true ∧
    cfgNegRate.heat_rate < 0 ∧ cfgNegRate.cool_rate < 0 ∧
    (calculate_temperature_profile cfgNegRate).isSome = true := by
  refine ⟨by norm_num [cfgCyclesZero, c5cfg], ?_,
    by norm_num [cfgNegRate, c5cfg], by norm_num [cfgNegRate, c5cfg], ?_⟩
  · norm_num [calculate_temperature_profile, cycleStep, cycleHighTime,
      cycleLowTime, cycleType, rampTo, hold, appendPoint, cfgCyclesZero,
      c5cfg, List.range_succ]
  · norm_num [calculate_temperature_profile, cycleStep, cycleHighTime,
      cycleLowTime, cycleType, rampTo, hold, appendPoint, cfgNegRate,
      c5cfg, List.range_succ]

/-- Witness for the amended C1 at the scenario configuration. -/
theorem claim1_witness :
    c5cfg.heat_rate ≠ 0 ∧ c5cfg.cool_rate ≠ 0 ∧
    ∃ r, calculate_temperature_profile c5cfg = some r :=
  ⟨by norm_num [c5cfg], by norm_num [c5cfg],
    claim1_amended c5cfg (by norm_num [c5cfg]) (by norm_num [c5cfg])⟩

/- Key-point invariant lemmas for C9. -/

theorem keyInv_appendPoint (lbl : String) (s : SimState) :
    KeyInv s → KeyInv (appendPoint lbl s) := by
  intro h
  simp only [KeyInv, appendPoint] at h ⊢
  simp [h, List.range_succ]

theorem keyInv_hold (d : ℚ) (lbl : String) (s : SimState) :
    KeyInv s → KeyInv (hold d lbl s) := fun h =>
  keyInv_appendPoint lbl _ h

theorem keyInv_rampTo (p : Params) (target : ℚ) (lbl : String)
    (s s' : SimState) (he : rampTo p target lbl s = some s') :
    KeyInv s → KeyInv s' := by
  intro h
  rcases rampTo_some_inv p target lbl s s' he with rfl | ⟨rate, -, rfl⟩
  · exact h
  · simp only [KeyInv] at h ⊢
    simp [h, List.range_succ]

theorem keyInv_cycleStep (p : Params) (s : SimState) (c : ℕ)
    (s' : SimState) (he : cycleStep p s c = some s') :
    KeyInv s → KeyInv s' := by
  intro h
  simp only [cycleStep] at he
  rcases Option.bind_eq_some.mp he with ⟨s1, h1, hrest⟩
  have k1 := keyInv_rampTo p p.high_temp (cycleType p c ++ lblHighReached)
    s s1 h1 h
  have k2 := keyInv_hold (cycleHighTime p c)
    (cycleType p c ++ lblHighEnd) s1 k1
  split at hrest
  · rcases Option.bind_eq_some.mp hrest with ⟨s3, h3, hfin⟩
    have k3 := keyInv_rampTo p p.low_temp (cycleType p c ++ lblLowReached)
      _ s3 h3 k2
    simp only [Option.pure_def, Option.some.injEq] at hfin
    rw [← hfin]
    exact keyInv_hold (cycleLowTime p c) (cycleType p c ++ lblLowEnd) s3 k3
  · simp only [Option.pure_def, Option.some.injEq] at hrest
    rw [← hrest]
    exact k2

/-- C9: on every successful run, key_points is exactly the index list
0, 1, ..., len(profile) - 1 in increasing order: each append to the
profile is immediately followed by key_points.append(len(profile)-1),
so every emitted point is marked as a key point. -/
theorem claim9_keypoints (p : Params) :
    ∀ pr kp, calculate_temperature_profile p = some (pr, kp) →
      kp = List.range pr.length := by
  intro pr kp heq
  simp only [calculate_temperature_profile] at heq
  rcases Option.bind_eq_some.mp heq with ⟨s3, h3, hrest⟩
  rcases Option.bind_eq_some.mp hrest with ⟨s4, h4, hfin⟩
  have k0 : KeyInv ⟨[], [], 0, p.initial_temp⟩ := rfl
  have k2 := keyInv_hold p.initial_time lblInitialEnd
    (appendPoint lblInitialStart ⟨[], [], 0, p.initial_temp⟩)
    (keyInv_appendPoint lblInitialStart ⟨[], [], 0, p.initial_temp⟩ k0)
  have k3 := foldlM_some_inv (cycleStep p) KeyInv
    (fun b a b' hb hba => keyInv_cycleStep p b a b' hba hb)
    (List.range p.cycles) _ s3 k2 h3
  have k4 := keyInv_rampTo p p.recovery_temp lblRecoveryReached s3 s4 h4 k3
  have k5 := keyInv_hold p.recovery_time lblRecoveryEnd s4 k4
  simp only [Option.pure_def, Option.some.injEq, Prod.mk.injEq] at hfin
  obtain ⟨hpr, hkp⟩ := hfin
  rw [← hpr, ← hkp]
  exact k5

/-- Witness for C9 on the degenerate single-cycle configuration: five
points, key points 0..4. -/
theorem claim9_witness :
    calculate_temperature_profile cfgDegenerate =
      some (degProfile, List.range 5) ∧
    List.range 5 = List.range degProfile.length := by
  have h : calculate_temperature_profile cfgDegenerate =
      some (degProfile, List.range 5) := by
    norm_num [calculate_temperature_profile, cycleStep, cycleHighTime,
      cycleLowTime, cycleType, rampTo, hold, appendPoint, cfgDegenerate,
      c5cfg, degProfile, List.range_succ]
  exact ⟨h, claim9_keypoints cfgDegenerate degProfile (List.range 5) h⟩

/-- C8 (amended): on an empty profile with no key points the web
variant create_chart_image is a no-op producing an empty mark list,
but the CLI variant create_chart_png reports an error (None/False
path) because setting the axis bounds takes max(times) of an empty
sequence, which raises ValueError. -/
theorem claim8_amended (env : ChartEnv) :
    create_chart_image env [] [] = some [] ∧
    create_chart_png env [] [] = none :=
  ⟨rfl, rfl⟩

/-- Counterexample to C8 as stated: on the empty profile the CLI chart
step yields the error outcome, not a successful empty result. -/
theorem claim8_counterexample :
    create_chart_png envW [] [] = none ∧
    ¬∃ r, create_chart_png envW [] [] = some r := by
  refine ⟨rfl, ?_⟩
  rintro ⟨r, hr⟩
  rw [show create_chart_png envW [] [] = none from rfl] at hr
  exact Option.noConfusion hr

/-- Counterexample to C3 as stated: on cfgDegenerate (one cycle whose
ramp-to-high is skipped because initial_temp = high_temp) the claimed
formula 2 + cycles*2 + (cycles-1)*2 + 2 minus one PAIR of points for
the cycle with a skipped ramp predicts 4 points, but the simulator
emits 5 — a skipped ramp removes exactly one point, not two. -/
theorem claim3_counterexample :
    (calculate_temperature_profile cfgDegenerate).map (fun r => r.1.length) =
      some 5 ∧
    cfgDegenerate.initial_temp = cfgDegenerate.high_temp ∧
    (2 + cfgDegenerate.cycles * 2 + (cfgDegenerate.cycles - 1) * 2 + 2) - 2
      = 4 ∧
    (5 : ℕ) ≠ 4 := by
  refine ⟨?_, by norm_num [cfgDegenerate, c5cfg], by norm_num [cfgDegenerate, c5cfg], by norm_num⟩
  norm_num [calculate_temperature_profile, cycleStep, cycleHighTime,
    cycleLowTime, cycleType, rampTo, hold, appendPoint, cfgDegenerate,
    c5cfg, List.range_succ]

/- Label-tracking lemmas for C6: every point appended by a phase
carries that phase's label, so a run can only produce labels drawn
from the labels of the phases it executes. -/

theorem labelsOk_appendPoint (allowed : List String) (lbl : String)
    (hin : lbl ∈ allowed) (s : SimState)
    (h : ∀ pt ∈ s.profile, pt.2.2 ∈ allowed) :
    ∀ pt ∈ (appendPoint lbl s).profile, pt.2.2 ∈ allowed := by
  intro pt hpt
  simp only [appendPoint, List.mem_append, List.mem_singleton] at hpt
  rcases hpt with hpt | rfl
  · exact h pt hpt
  · exact hin

theorem labelsOk_hold (allowed : List String) (d : ℚ) (lbl : String)
    (hin : lbl ∈ allowed) (s : SimState)
    (h : ∀ pt ∈ s.profile, pt.2.2 ∈ allowed) :
    ∀ pt ∈ (hold d lbl s).profile, pt.2.2 ∈ allowed :=
  labelsOk_appendPoint allowed lbl hin _ h

theorem labelsOk_rampTo (allowed : List String) (p : Params) (target : ℚ)
    (lbl : String) (hin : lbl ∈ allowed) (s s' : SimState)
    (he : rampTo p target lbl s = some s')
    (h : ∀ pt ∈ s.profile, pt.2.2 ∈ allowed) :
    ∀ pt ∈ s'.profile, pt.2.2 ∈ allowed := by
  rcases rampTo_some_inv p target lbl s s' he with rfl | ⟨rate, -, rfl⟩
  · exact h
  · intro pt hpt
    simp only [List.mem_append, List.mem_singleton] at hpt
    rcases hpt with hpt | rfl
    · exact h pt hpt
    · exact hin

/-- C6: when cycles = 1 the single cycle is treated as a first cycle,
never a last cycle, because the if cycle == 0 branch is tested before
the elif cycle == cycles - 1 branch.  Consequently the result is
independent of the last-cycle hold durations, and every label in the
profile is an initial, first-cycle or recovery label — the last-cycle
prefix never appears. -/
theorem claim6_single_cycle (p : Params) (h : p.cycles = 1) :
    (∀ t1 t2 : ℚ,
      calculate_temperature_profile
        { p with last_high_time := t1, last_low_time := t2 } =
      calculate_temperature_profile p) ∧
    (∀ pr kp, calculate_temperature_profile p = some (pr, kp) →
      ∀ pt ∈ pr, pt.2.2 ∈ [lblInitialStart, lblInitialEnd,
        lblFirstCycle ++ lblHighReached, lblFirstCycle ++ lblHighEnd,
        lblRecoveryReached, lblRecoveryEnd]) := by
  obtain ⟨iT, tI, rT, tR, hT, hTol, loT, loTol, fH, fL, lH, lL, mH, mL,
    hR, cR, cy⟩ := p
  replace h : cy = 1 := h
  subst h
  have hr1 : List.range 1 = [0] := rfl
  constructor
  · intro t1 t2
    simp [calculate_temperature_profile, cycleStep, cycleHighTime,
      cycleLowTime, cycleType, rampTo, hold, appendPoint, hr1, List.foldlM]
  · intro pr kp heq
    simp only [calculate_temperature_profile] at heq
    rcases Option.bind_eq_some.mp heq with ⟨s3, h3, hrest⟩
    rcases Option.bind_eq_some.mp hrest with ⟨s4, h4, hfin⟩
    rw [hr1, List.foldlM_cons] at h3
    rcases Option.bind_eq_some.mp h3 with ⟨sc, hc, hcrest⟩
    simp only [List.foldlM, Option.pure_def, Option.some.injEq] at hcrest
    subst hcrest
    simp only [cycleStep] at hc
    norm_num at hc
    rcases Option.bind_eq_some.mp hc with ⟨s1, hramp1, hpure1⟩
    simp only [Option.pure_def, Option.some.injEq] at hpure1
    have L0 : ∀ pt ∈ (SimState.profile ⟨[], [], 0, iT⟩),
        pt.2.2 ∈ [lblInitialStart, lblInitialEnd,
          lblFirstCycle ++ lblHighReached, lblFirstCycle ++ lblHighEnd,
          lblRecoveryReached, lblRecoveryEnd] := by
      intro pt hpt
      exact absurd hpt (List.not_mem_nil pt)
    have L1 := labelsOk_appendPoint _ lblInitialStart (by simp) _ L0
    have L2 := labelsOk_hold _ tI lblInitialEnd (by simp) _ L1
    have L3 := labelsOk_rampTo _ _ _ _ (by simp [cycleType]) _ s1 hramp1 L2
    have L4 := labelsOk_hold _ (cycleHighTime
      ⟨iT, tI, rT, tR, hT, hTol, loT, loTol, fH, fL, lH, lL, mH, mL,
        hR, cR, 1⟩ 0)
      (cycleType ⟨iT, tI, rT, tR, hT, hTol, loT, loTol, fH, fL, lH, lL,
        mH, mL, hR, cR, 1⟩ 0 ++ lblHighEnd) (by simp [cycleType]) s1 L3
    rw [hpure1] at L4
    have L5 := labelsOk_rampTo _ _ _ _ (by simp) _ s4 h4 L4
    have L6 := labelsOk_hold _ tR lblRecoveryEnd (by simp) _ L5
    simp only [Option.pure_def, Option.some.injEq, Prod.mk.injEq] at hfin
    obtain ⟨hpr, -⟩ := hfin
    rw [← hpr]
    exact L6

/- Time-monotonicity invariant lemmas for C4. -/

theorem timeInv_appendPoint (lbl : String) (s : SimState) (h : TimeInv s) :
    TimeInv (appendPoint lbl s) := by
  obtain ⟨hch, hle⟩ := h
  refine ⟨?_, ?_⟩
  · show List.Chain' _ (s.profile ++ [(s.current_time, s.current_temp, lbl)])
    rw [List.chain'_append]
    refine ⟨hch, List.chain'_singleton _, ?_⟩
    intro x hx y hy
    have hx' : x ∈ s.profile := by
      rcases List.mem_getLast?_eq_getLast hx with ⟨hne, rfl⟩
      exact List.getLast_mem hne
    have hy' : (s.current_time, s.current_temp, lbl) = y := by simpa using hy
    subst hy'
    exact hle x hx'
  · intro pt hpt
    rcases List.mem_append.mp hpt with h1 | h1
    · exact hle pt h1
    · simp only [List.mem_singleton] at h1
      subst h1
      exact le_refl _

theorem timeInv_set (s : SimState) (t' temp' : ℚ)
    (hle : s.current_time ≤ t') (h : TimeInv s) :
    TimeInv { s with current_time := t', current_temp := temp' } :=
  ⟨h.1, fun pt hpt => le_trans (h.2 pt hpt) hle⟩

theorem timeInv_hold (d : ℚ) (lbl : String) (s : SimState) (hd : 0 ≤ d)
    (h : TimeInv s) : TimeInv (hold d lbl s) :=
  timeInv_appendPoint lbl
    { s with current_time := s.current_time + d,
             current_temp := s.current_temp }
    (timeInv_set s (s.current_time + d) s.current_temp
      (le_add_of_nonneg_right hd) h)

theorem timeInv_rampTo (p : Params) (target : ℚ) (lbl : String)
    (s s' : SimState) (hh : 0 < p.heat_rate) (hc : 0 < p.cool_rate)
    (he : rampTo p target lbl s = some s') (h : TimeInv s) : TimeInv s' := by
  rcases rampTo_some_inv p target lbl s s' he with rfl | ⟨rate, hrate, rfl⟩
  · exact h
  · have hr0 : 0 < rate := by
      rcases hrate with rfl | rfl
      · exact hh
      · exact hc
    have hdt : 0 ≤ |target - s.current_temp| / rate :=
      div_nonneg (abs_nonneg _) hr0.le
    exact timeInv_appendPoint lbl
      { s with current_time := s.current_time +
                 |target - s.current_temp| / rate,
               current_temp := target }
      (timeInv_set s (s.current_time + |target - s.current_temp| / rate)
        target (le_add_of_nonneg_right hdt) h)

theorem timeInv_cycleStep (p : Params) (s : SimState) (c : ℕ)
    (s' : SimState) (hh : 0 < p.heat_rate) (hc : 0 < p.cool_rate)
    (hd : NonnegDurations p) (he : cycleStep p s c = some s')
    (h : TimeInv s) : TimeInv s' := by
  have hht : 0 ≤ cycleHighTime p c := by
    unfold cycleHighTime
    split_ifs
    · exact hd.2.2.1
    · exact hd.2.2.2.2.1
    · exact hd.2.2.2.2.2.2.1
  have hlt : 0 ≤ cycleLowTime p c := by
    unfold cycleLowTime
    split_ifs
    · exact hd.2.2.2.1
    · exact hd.2.2.2.2.2.1
    · exact hd.2.2.2.2.2.2.2
  simp only [cycleStep] at he
  rcases Option.bind_eq_some.mp he with ⟨s1, h1, hrest⟩
  have t1 := timeInv_rampTo p p.high_temp (cycleType p c ++ lblHighReached)
    s s1 hh hc h1 h
  have t2 := timeInv_hold (cycleHighTime p c)
    (cycleType p c ++ lblHighEnd) s1 hht t1
  split at hrest
  · rcases Option.bind_eq_some.mp hrest with ⟨s3, h3, hfin⟩
    have t3 := timeInv_rampTo p p.low_temp (cycleType p c ++ lblLowReached)
      _ s3 hh hc h3 t2
    simp only [Option.pure_def, Option.some.injEq] at hfin
    rw [← hfin]
    exact timeInv_hold (cycleLowTime p c) (cycleType p c ++ lblLowEnd)
      s3 hlt t3
  · simp only [Option.pure_def, Option.some.injEq] at hrest
    rw [← hrest]
    exact t2

/-- C4: for non-negative durations and strictly positive rates, the
times of consecutive points in a successfully produced profile are
non-decreasing through every ramp and hold phase, from the initial
hold to the final recovery. -/
theorem claim4_monotone (p : Params) (hd : NonnegDurations p)
    (hh : 0 < p.heat_rate) (hc : 0 < p.cool_rate) :
    ∀ pr kp, calculate_temperature_profile p = some (pr, kp) →
      List.Chain' (fun a b : ProfilePoint => a.1 ≤ b.1) pr := by
  intro pr kp heq
  simp only [calculate_temperature_profile] at heq
  rcases Option.bind_eq_some.mp heq with ⟨s3, h3, hrest⟩
  rcases Option.bind_eq_some.mp hrest with ⟨s4, h4, hfin⟩
  have t0 : TimeInv ⟨[], [], 0, p.initial_temp⟩ :=
    ⟨List.chain'_nil, by simp⟩
  have t1 := timeInv_appendPoint lblInitialStart ⟨[], [], 0, p.initial_temp⟩ t0
  have t2 := timeInv_hold p.initial_time lblInitialEnd
    (appendPoint lblInitialStart ⟨[], [], 0, p.initial_temp⟩) hd.1 t1
  have t3 := foldlM_some_inv (cycleStep p) TimeInv
    (fun b a b' hb hba => timeInv_cycleStep p b a b' hh hc hd hba hb)
    (List.range p.cycles) _ s3 t2 h3
  have t4 := timeInv_rampTo p p.recovery_temp lblRecoveryReached s3 s4
    hh hc h4 t3
  have t5 := timeInv_hold p.recovery_time lblRecoveryEnd s4 hd.2.1 t4
  simp only [Option.pure_def, Option.some.injEq, Prod.mk.injEq] at hfin
  obtain ⟨hpr, -⟩ := hfin
  rw [← hpr]
  exact t5.1

/-- Witness for C4 at the scenario configuration: the fourteen
scenario times are non-decreasing. -/
theorem claim4_witness :
    NonnegDurations c5cfg ∧ (0 : ℚ) < c5cfg.heat_rate ∧
    (0 : ℚ) < c5cfg.cool_rate ∧
    List.Chain' (fun a b : ProfilePoint => a.1 ≤ b.1) c5profile := by
  have h1 : NonnegDurations c5cfg := by
    refine ⟨?_, ?_, ?_, ?_, ?_, ?_, ?_, ?_⟩ <;> norm_num [c5cfg]
  have h2 : (0 : ℚ) < c5cfg.heat_rate := by norm_num [c5cfg]
  have h3 : (0 : ℚ) < c5cfg.cool_rate := by norm_num [c5cfg]
  have h5 : calculate_temperature_profile c5cfg =
      some (c5profile, List.range 14) := by
    norm_num [calculate_temperature_profile, cycleStep, cycleHighTime,
      cycleLowTime, cycleType, rampTo, hold, appendPoint, c5cfg, c5profile,
      List.range_succ, lblInitialStart, lblInitialEnd, lblFirstCycle,
      lblLastCycle, lblMiddleCycle, lblHighReached, lblHighEnd,
      lblLowReached, lblLowEnd, lblRecoveryReached, lblRecoveryEnd]
  exact ⟨h1, h2, h3,
    claim4_monotone c5cfg h1 h2 h3 c5profile (List.range 14) h5⟩

/- Permutation lemmas for C7: List.any only depends on the multiset of
elements, so the single used_positions pool can be tracked as two lists
provided every check consults both. -/

theorem perm_any_eq {α : Type} {l₁ l₂ : List α} (h : l₁.Perm l₂)
    (f : α → Bool) : l₁.any f = l₂.any f := by
  cases e1 : l₁.any f <;> cases e2 : l₂.any f
  · rfl
  · rcases List.any_eq_true.mp e2 with ⟨a, ha, hfa⟩
    have e3 : l₁.any f = true :=
      List.any_eq_true.mpr ⟨a, h.mem_iff.mpr ha, hfa⟩
    rw [e1] at e3
    exact Bool.noConfusion e3
  · rcases List.any_eq_true.mp e1 with ⟨a, ha, hfa⟩
    have e3 : l₂.any f = true :=
      List.any_eq_true.mpr ⟨a, h.mem_iff.mp ha, hfa⟩
    rw [e2] at e3
    exact Bool.noConfusion e3
  · rfl

theorem perm_pool_any {α : Type} (f : α → Bool) {used tUsed pUsed : List α}
    (h : used.Perm (tUsed ++ pUsed)) :
    used.any f = (tUsed.any f || pUsed.any f) := by
  rw [perm_any_eq h f, List.any_append]

theorem perm_pool_t {α : Type} {used tUsed pUsed : List α}
    (h : used.Perm (tUsed ++ pUsed)) (a : α) :
    (used ++ [a]).Perm ((tUsed ++ [a]) ++ pUsed) := by
  refine (h.append_right [a]).trans ?_
  rw [List.append_assoc, List.append_assoc]
  exact List.Perm.append_left tUsed List.perm_append_comm

theorem perm_pool_p {α : Type} {used tUsed pUsed : List α}
    (h : used.Perm (tUsed ++ pUsed)) (a : α) :
    (used ++ [a]).Perm (tUsed ++ (pUsed ++ [a])) := by
  refine (h.append_right [a]).trans ?_
  rw [List.append_assoc]

/-- Equivalence of the one-pool annotation loop with its two-list
reformulation in which both collision checks consult both lists. -/
theorem annotateAux_eq_two (env : ChartEnv) (times temps : List ℚ) :
    ∀ (ks : List ℕ) (used tUsed pUsed : List (ℚ × ℚ)),
      used.Perm (tUsed ++ pUsed) →
      annotateAux env times temps ks used =
        annotateAux2 env times temps ks tUsed pUsed := by
  intro ks
  induction ks with
  | nil => intro used tUsed pUsed h; rfl
  | cons idx rest ih =>
    intro used tUsed pUsed h
    cases h1 : times[idx]? with
    | none =>
      cases h2 : temps[idx]? <;> simp [annotateAux, annotateAux2, h1, h2]
    | some time =>
      cases h2 : temps[idx]? with
      | none => simp [annotateAux, annotateAux2, h1, h2]
      | some temp =>
        simp only [annotateAux, annotateAux2, h1, h2]
        rw [perm_pool_any _ h]
        split
        · rw [perm_pool_any _ h]
          split
          · rw [ih used tUsed pUsed h]
          · rw [ih _ _ _ (perm_pool_p h _)]
        · rw [perm_pool_any _ (perm_pool_t h ((time,
            env.ylo + (env.yhi - env.ylo) * (2 / 100))))]
          split
          · rw [ih _ _ _ (perm_pool_t h _)]
          · rw [ih _ _ _ (perm_pool_p (perm_pool_t h _) _)]

/-- C7 (amended): the source keeps one shared used_positions pool for
both axes, which is equivalent to keeping two separate lists of
time-axis and temperature-axis anchors where EVERY collision check
consults both lists.  So the temperature-axis label is bumped from the
2 percent to the 6 percent x inset if and only if its y position lies
within 3 percent of the temperature range of the y component of any
previously committed anchor — including time-axis anchors (recorded at
the 2 percent y inset), and including the same point's own time-axis
anchor when that was committed unbumped.  A time-axis label can
therefore trigger a temperature-axis collision, contrary to the
claim's separate-lists reading. -/
theorem claim7_amended (env : ChartEnv) (times temps : List ℚ)
    (ks : List ℕ) :
    annotateAux env times temps ks [] =
      annotateAux2 env times temps ks [] [] :=
  annotateAux_eq_two env times temps ks [] [] [] (List.Perm.refl [])

/-- Counterexample to C7 as stated: with axis limits x, y ∈ [0, 100]
and a single key point at (time 10, temperature 3), the source bumps
the temperature label to the 6 inset purely because of the point's own
committed time-axis anchor (whose y component is the 2 inset, within
the threshold 3 of temperature 3), while the claim's two-separate-list
algorithm (splitListAux) leaves it at the 2 inset since no
temperature-axis label was committed before. -/
theorem claim7_counterexample :
    create_chart_image envW ceProfile [0] =
      some [{ marker := ((10 : ℚ), (3 : ℚ)), timeLabel := (10, 2),
              tempLabel := (6, 3) }] ∧
    claim_chart_image envW ceProfile [0] =
      some [{ marker := ((10 : ℚ), (3 : ℚ)), timeLabel := (10, 2),
              tempLabel := (2, 3) }] ∧
    ((6 : ℚ), (3 : ℚ)) ≠ ((2 : ℚ), (3 : ℚ)) := by
  have hs : sortedKeys [0] = [0] := rfl
  refine ⟨?_, ?_, by norm_num⟩
  · norm_num [create_chart_image, annotateAux, hs, envW, ceProfile,
      decide_eq_true_eq]
  · norm_num [claim_chart_image, splitListAux, hs, envW, ceProfile,
      decide_eq_true_eq]

/-- Witness for C6 at the degenerate single-cycle configuration: the
last-cycle hold durations are irrelevant to the result. -/
theorem claim6_witness :
    cfgDegenerate.cycles = 1 ∧
    calculate_temperature_profile
      { cfgDegenerate with last_high_time := 9, last_low_time := 9 } =
    calculate_temperature_profile cfgDegenerate :=
  ⟨rfl, (claim6_single_cycle cfgDegenerate rfl).1 9 9⟩

/- Point-count lemmas for C3. -/

theorem ite_eq_flip (a b : ℚ) :
    (if a = b then (0 : ℕ) else 1) = (if b = a then (0 : ℕ) else 1) := by
  by_cases h : a = b
  · rw [if_pos h, if_pos h.symm]
  · rw [if_neg h, if_neg fun e => h e.symm]

/-- Counting form of one cycle iteration: it succeeds, lands on
low_temp (on a non-final cycle) or high_temp (on the final cycle), and
appends one point per hold plus one point per non-degenerate ramp. -/
theorem cycleStep_count (p : Params) (hh : p.heat_rate ≠ 0)
    (hc : p.cool_rate ≠ 0) (s : SimState) (c : ℕ) :
    ∃ s', cycleStep p s c = some s' ∧
      s'.current_temp =
        (if c < p.cycles - 1 then p.low_temp else p.high_temp) ∧
      s'.profile.length = s.profile.length
        + ((if s.current_temp = p.high_temp then 0 else 1) + 1)
        + (if c < p.cycles - 1 then
             ((if p.high_temp = p.low_temp then 0 else 1) + 1) else 0) := by
  obtain ⟨s1, e1, t1, l1⟩ :=
    rampTo_count p hh hc p.high_temp (cycleType p c ++ lblHighReached) s
  by_cases hlt : c < p.cycles - 1
  · obtain ⟨s3, e3, t3, l3⟩ :=
      rampTo_count p hh hc p.low_temp (cycleType p c ++ lblLowReached)
        (hold (cycleHighTime p c) (cycleType p c ++ lblHighEnd) s1)
    rw [hold_temp, t1] at l3
    rw [hold_length] at l3
    refine ⟨hold (cycleLowTime p c) (cycleType p c ++ lblLowEnd) s3,
      ?_, ?_, ?_⟩
    · simp [cycleStep, e1, hlt, e3]
    · rw [hold_temp, t3, if_pos hlt]
    · rw [hold_length, l3, l1, if_pos hlt]
      generalize (if s.current_temp = p.high_temp then (0:ℕ) else 1) = A
      generalize (if p.high_temp = p.low_temp then (0:ℕ) else 1) = B
      omega
  · refine ⟨hold (cycleHighTime p c) (cycleType p c ++ lblHighEnd) s1,
      ?_, ?_, ?_⟩
    · simp [cycleStep, e1, hlt]
    · rw [hold_temp, t1, if_neg hlt]
    · rw [hold_length, l1, if_neg hlt]
      generalize (if s.current_temp = p.high_temp then (0:ℕ) else 1) = A
      omega

/-- Counting form of a run of middle cycles (indices start, ...,
start + k - 1, all strictly between 0 and cycles - 1): the state stays
at low_temp and each iteration appends 2 hold points plus one point
per non-degenerate ramp. -/
theorem loop_middle (p : Params) (hh : p.heat_rate ≠ 0)
    (hc : p.cool_rate ≠ 0) :
    ∀ (k start : ℕ) (s : SimState), 1 ≤ start →
      start + k + 1 ≤ p.cycles → s.current_temp = p.low_temp →
      ∃ s', (List.range' start k).foldlM (cycleStep p) s = some s' ∧
        s'.current_temp = p.low_temp ∧
        s'.profile.length = s.profile.length +
          k * (2 + (if p.low_temp = p.high_temp then 0 else 1)
                 + (if p.high_temp = p.low_temp then 0 else 1)) := by
  intro k
  induction k with
  | zero =>
    intro start s h1 h2 hs
    exact ⟨s, rfl, hs, by simp⟩
  | succ k ih =>
    intro start s h1 h2 hs
    obtain ⟨s1, e1, t1, l1⟩ := cycleStep_count p hh hc s start
    have hmid : start < p.cycles - 1 := by omega
    rw [if_pos hmid] at t1 l1
    rw [hs] at l1
    obtain ⟨s2, e2, t2, l2⟩ := ih (start + 1) s1 (by omega) (by omega) t1
    refine ⟨s2, ?_, t2, ?_⟩
    · rw [show List.range' start (k + 1) = start :: List.range' (start + 1) k
        from rfl]
      rw [List.foldlM_cons, e1]
      simpa using e2
    · rw [l2, l1]
      generalize (if p.low_temp = p.high_temp then (0:ℕ) else 1) = A
      generalize (if p.high_temp = p.low_temp then (0:ℕ) else 1) = B
      ring

/-- C3 (amended): for cycles ≥ 1 and positive rates the run succeeds
and the point count satisfies
len + [initial_temp = high_temp] + 2·(cycles-1)·[high_temp = low_temp]
    + [recovery_temp = high_temp] = 2 + cycles·2 + (cycles-1)·2 + 2,
that is, each skipped ramp removes exactly ONE point from the base
count: one for a degenerate first ramp-to-high, two per middle cycle
pair of degenerate ramps when high_temp = low_temp, and one for a
degenerate recovery ramp.  In particular a configuration with
high_temp == initial_temp skips the first ramp-to-high entirely and
contributes one point fewer for that phase, not a pair. -/
theorem claim3_amended (p : Params) (h1 : 1 ≤ p.cycles)
    (hh : 0 < p.heat_rate) (hc : 0 < p.cool_rate) :
    ∃ pr kp, calculate_temperature_profile p = some (pr, kp) ∧
      pr.length
        + (if p.initial_temp = p.high_temp then 1 else 0)
        + 2 * (p.cycles - 1) * (if p.high_temp = p.low_temp then 1 else 0)
        + (if p.recovery_temp = p.high_temp then 1 else 0)
      = 2 + p.cycles * 2 + (p.cycles - 1) * 2 + 2 := by
  have hh' : p.heat_rate ≠ 0 := hh.ne'
  have hc' : p.cool_rate ≠ 0 := hc.ne'
  have hs2t : (hold p.initial_time lblInitialEnd (appendPoint lblInitialStart
      (⟨[], [], 0, p.initial_temp⟩ : SimState))).current_temp
      = p.initial_temp := rfl
  have hs2len : (hold p.initial_time lblInitialEnd
      (appendPoint lblInitialStart
        (⟨[], [], 0, p.initial_temp⟩ : SimState))).profile.length = 2 := rfl
  rcases Nat.exists_eq_add_of_le h1 with ⟨m0, hm⟩
  cases m0 with
  | zero =>
    have hn1 : p.cycles = 1 := by omega
    have hr : List.range p.cycles = [0] := by rw [hn1]; rfl
    obtain ⟨sc, ec, tc, lc⟩ := cycleStep_count p hh' hc'
      (hold p.initial_time lblInitialEnd (appendPoint lblInitialStart
        ⟨[], [], 0, p.initial_temp⟩)) 0
    have h0 : ¬ (0 < p.cycles - 1) := by omega
    rw [if_neg h0] at tc lc
    rw [hs2t, hs2len] at lc
    obtain ⟨s4, e4, t4, l4⟩ :=
      rampTo_count p hh' hc' p.recovery_temp lblRecoveryReached sc
    rw [tc] at l4
    refine ⟨(hold p.recovery_time lblRecoveryEnd s4).profile,
      (hold p.recovery_time lblRecoveryEnd s4).key_points, ?_, ?_⟩
    · simp [calculate_temperature_profile, hr, List.foldlM, ec, e4]
    · rw [hold_length, l4, lc]
      rw [ite_eq_flip p.high_temp p.recovery_temp]
      rw [hn1]
      split_ifs <;> omega
  | succ m =>
    have hn : p.cycles = m + 2 := by omega
    have hsplit : List.range p.cycles = 0 :: (List.range' 1 m ++ [1 + m]) := by
      rw [hn, List.range_eq_range']
      rw [show List.range' 0 (m + 2) = 0 :: List.range' 1 (m + 1) from rfl]
      rw [List.range'_concat]
      simp
    obtain ⟨sc0, ec0, tc0, lc0⟩ := cycleStep_count p hh' hc'
      (hold p.initial_time lblInitialEnd (appendPoint lblInitialStart
        ⟨[], [], 0, p.initial_temp⟩)) 0
    have hmid0 : 0 < p.cycles - 1 := by omega
    rw [if_pos hmid0] at tc0 lc0
    rw [hs2t, hs2len] at lc0
    obtain ⟨sm, em, tm, lm⟩ := loop_middle p hh' hc' m 1 sc0 (le_refl 1)
      (by omega) tc0
    obtain ⟨sl, el, tl, ll⟩ := cycleStep_count p hh' hc' sm (1 + m)
    have hlast : ¬ (1 + m < p.cycles - 1) := by omega
    rw [if_neg hlast] at tl ll
    rw [tm] at ll
    obtain ⟨s4, e4, t4, l4⟩ :=
      rampTo_count p hh' hc' p.recovery_temp lblRecoveryReached sl
    rw [tl] at l4
    refine ⟨(hold p.recovery_time lblRecoveryEnd s4).profile,
      (hold p.recovery_time lblRecoveryEnd s4).key_points, ?_, ?_⟩
    · simp [calculate_temperature_profile, hsplit, List.foldlM_cons,
        List.foldlM_append, List.foldlM, ec0, em, el, e4]
    · rw [hold_length, l4, ll, lm, lc0]
      rw [ite_eq_flip p.low_temp p.high_temp,
        ite_eq_flip p.high_temp p.recovery_temp]
      rw [hn]
      split_ifs <;> omega

/-- Witness for the amended C3 at the scenario configuration. -/
theorem claim3_witness :
    1 ≤ c5cfg.cycles ∧ (0 : ℚ) < c5cfg.heat_rate ∧
    (0 : ℚ) < c5cfg.cool_rate ∧
    ∃ pr kp, calculate_temperature_profile c5cfg = some (pr, kp) ∧
      pr.length
        + (if c5cfg.initial_temp = c5cfg.high_temp then 1 else 0)
        + 2 * (c5cfg.cycles - 1) *
            (if c5cfg.high_temp = c5cfg.low_temp then 1 else 0)
        + (if c5cfg.recovery_temp = c5cfg.high_temp then 1 else 0)
      = 2 + c5cfg.cycles * 2 + (c5cfg.cycles - 1) * 2 + 2 := by
  have ha : 1 ≤ c5cfg.cycles := by norm_num [c5cfg]
  have hb : (0 : ℚ) < c5cfg.heat_rate := by norm_num [c5cfg]
  have hd : (0 : ℚ) < c5cfg.cool_rate := by norm_num [c5cfg]
  exact ⟨ha, hb, hd, claim3_amended c5cfg ha hb hd⟩

end TemTime
